import Mathlib

/-!
Verification of the GPIB-232 adapter layer and two HP instrument drivers
(`pymeasure/adapters/ni_gpib_232ct.py`, `pymeasure/instruments/hp/hp3314A.py`,
`pymeasure/instruments/hp/hp853a.py`).

Strings exchanged with the serial connection are modelled as `List Char`.
Python string primitives (`int()`, `str.split`, `str.strip`, `str.lstrip`,
`str.rstrip`, f-string number formatting) are embedded below; each adapter
method is translated line by line into a function that consumes the list of
lines the connection yields to successive `read()` calls and produces the
ordered trace of connection events.  A Python exception (`ValueError` from
`int()`, a pyvisa timeout on a read with no data) makes the run return `none`.
-/

/-- The characters of a string literal. -/
def chars (s : String) : List Char := s.data

/-- Whitespace characters stripped by Python `str.strip()` and ignored
around the payload by `int()` (the ASCII ones). -/
def pyWhitespace : List Char := [' ', '\t', '\n', '\r', Char.ofNat 11, Char.ofNat 12]

/-- Python `str.lstrip(cs)`: drop leading characters that occur in `cs`. -/
def pyLstrip (cs : List Char) (s : List Char) : List Char :=
  s.dropWhile (fun c => c ∈ cs)

/-- Python `str.rstrip(cs)`: drop trailing characters that occur in `cs`. -/
def pyRstrip (cs : List Char) (s : List Char) : List Char :=
  s.rdropWhile (fun c => c ∈ cs)

/-- Python `str.strip(cs)`: strip from both ends. -/
def pyStrip (cs : List Char) (s : List Char) : List Char :=
  pyRstrip cs (pyLstrip cs s)

/-- Value of a decimal digit character, `none` for any other character. -/
def digitVal (c : Char) : Option Nat :=
  if '0' ≤ c ∧ c ≤ '9' then some (c.toNat - 48) else none

/-- Decimal digit run as accepted by Python `int()` after the sign: digits
possibly separated by single underscores.  `acc` is the value so far,
`lastDigit` whether the previous character was a digit. -/
def parseDigitsAux : List Char → Nat → Bool → Option Nat
  | [], acc, lastDigit => if lastDigit then some acc else none
  | c :: rest, acc, lastDigit =>
    if c = '_' then
      if lastDigit then parseDigitsAux rest acc false else none
    else
      match digitVal c with
      | some d => parseDigitsAux rest (acc * 10 + d) true
      | none => none

/-- Nonempty decimal digit run (with Python's underscore rule). -/
def parseDigits (l : List Char) : Option Nat := parseDigitsAux l 0 false

/-- Python `int(s)` on a string/bytes object: surrounding whitespace is
ignored, an optional single sign precedes a nonempty digit run;
`none` models the `ValueError` raised on any other input. -/
def pyInt (l : List Char) : Option Int :=
  match pyStrip pyWhitespace l with
  | '+' :: rest => (parseDigits rest).map Int.ofNat
  | '-' :: rest => (parseDigits rest).map (fun n => -(n : Int))
  | t => (parseDigits t).map Int.ofNat

/-- Decimal rendering of a natural number, as Python `str`/f-strings do. -/
def pyShowNat (n : Nat) : List Char := Nat.toDigits 10 n

/-- Decimal rendering of an integer, as Python `str`/f-strings do. -/
def pyShowInt : Int → List Char
  | Int.ofNat n => pyShowNat n
  | Int.negSucc n => '-' :: pyShowNat (n + 1)

/-- Python `str.split(sep)` with the separator fixed in advance: splits on
non-overlapping occurrences of `sep` scanned left to right.  (Python raises
on an empty separator; this embedding is only used with nonempty ones.) -/
def pySplit (sep : List Char) : List Char → List (List Char)
  | [] => [[]]
  | c :: rest =>
    if h : sep ≠ [] ∧ sep.isPrefixOf (c :: rest) then
      [] :: pySplit sep ((c :: rest).drop sep.length)
    else
      match pySplit sep rest with
      | [] => [[c]]
      | hd :: tl => (c :: hd) :: tl
termination_by s => s.length
decreasing_by
  · simp only [List.length_drop, List.length_cons]
    have h1 : 1 ≤ sep.length := List.length_pos.mpr h.1
    omega
  · simp only [List.length_cons]
    omega

/-- A prefix of a list is also a prefix of any right-extension. -/
theorem pre_append_of_pre {α : Type} {t s : List α} (h : t <+: s) (r : List α) :
    t <+: s ++ r :=
  h.trans (List.prefix_append s r)

/-- `pySplit` never produces the empty list of pieces. -/
theorem pySplit_ne_nil (sep s : List Char) : pySplit sep s ≠ [] := by
  cases s with
  | nil => simp [pySplit]
  | cons c rest =>
    rw [pySplit]
    split
    · simp
    · split <;> simp

/-- The first piece of `pySplit sep s` is a prefix of `s`. -/
theorem pySplit_headI_pre (sep : List Char) : ∀ s : List Char, (pySplit sep s).headI <+: s := by
  intro s
  induction s with
  | nil => simp [pySplit]
  | cons c rest ih =>
    rw [pySplit]
    split
    · simp
    · cases hsp : pySplit sep rest with
      | nil => exact absurd hsp (pySplit_ne_nil sep rest)
      | cons hd tl =>
        rw [hsp] at ih
        simp only [List.headI]
        exact List.cons_prefix_cons.mpr ⟨rfl, ih⟩

/-- When the separator occurs nowhere in `s`, `pySplit` returns `[s]`. -/
theorem pySplit_eq_single (sep : List Char) :
    ∀ {s : List Char}, ¬ sep <:+: s → pySplit sep s = [s] := by
  intro s
  induction s with
  | nil => intro _; simp [pySplit]
  | cons c rest ih =>
    intro hnot
    rw [pySplit]
    split
    · rename_i h
      have hpre : sep <+: c :: rest := List.isPrefixOf_iff_prefix.mp h.2
      exact absurd hpre.isInfix hnot
    · have hrest : ¬ sep <:+: rest := fun hh => hnot (List.infix_cons hh)
      rw [ih hrest]

/-- The strip of a list is one of its infixes. -/
theorem pyStrip_isInf (cs s : List Char) : pyStrip cs s <:+: s := by
  have h1 : pyLstrip cs s <:+ s := List.dropWhile_suffix _
  have h2 : pyRstrip cs (pyLstrip cs s) <+: pyLstrip cs s := List.rdropWhile_prefix _ _
  exact (h2.isInfix).trans h1.isInfix

/-!
## The NI_GPIB_232 adapter (`pymeasure/adapters/ni_gpib_232ct.py`)

The three `IntFlag` status enumerations.  In Python ≥ 3.11 an `IntFlag`
constructed from an arbitrary integer keeps that integer (`boundary=KEEP`),
so decoding preserves the value; the named members are the constants below.
-/

/-- `GPIB_STATUS(IntFlag)`: GPIB status bit decoding. -/
structure GPIB_STATUS where
  val : Int
deriving DecidableEq

/-- `GPIB_ERR(IntFlag)`: GPIB error decoding. -/
structure GPIB_ERR where
  val : Int
deriving DecidableEq

/-- `SERIAL_ERR(IntFlag)`: serial error decoding. -/
structure SERIAL_ERR where
  val : Int
deriving DecidableEq

namespace GPIB_STATUS

def ERR : GPIB_STATUS := ⟨32768⟩
def TIMO : GPIB_STATUS := ⟨13684⟩
def END : GPIB_STATUS := ⟨8192⟩
def SRQI : GPIB_STATUS := ⟨4096⟩
def CMPL : GPIB_STATUS := ⟨256⟩
def LOK : GPIB_STATUS := ⟨128⟩
def REM : GPIB_STATUS := ⟨64⟩
def CIC : GPIB_STATUS := ⟨32⟩
def ATN : GPIB_STATUS := ⟨16⟩
def TACS : GPIB_STATUS := ⟨8⟩
def LACS : GPIB_STATUS := ⟨4⟩
def DTAS : GPIB_STATUS := ⟨2⟩
def SCAS : GPIB_STATUS := ⟨1⟩

/-- `GPIB_STATUS(i)` for an integer reply: the value is kept. -/
def decode (i : Int) : GPIB_STATUS := ⟨i⟩

/-- `IntFlag.__and__`: bitwise and of the underlying values. -/
def land (a b : GPIB_STATUS) : GPIB_STATUS := ⟨Int.land a.val b.val⟩

/-- The named members, in source order. -/
def members : List GPIB_STATUS :=
  [ERR, TIMO, END, SRQI, CMPL, LOK, REM, CIC, ATN, TACS, LACS, DTAS, SCAS]

end GPIB_STATUS

namespace GPIB_ERR

def ECMD : GPIB_ERR := ⟨17⟩
def EBUS : GPIB_ERR := ⟨14⟩
def ECAP : GPIB_ERR := ⟨11⟩
def EABO : GPIB_ERR := ⟨6⟩
def ESAC : GPIB_ERR := ⟨5⟩
def EARG : GPIB_ERR := ⟨4⟩
def EADR : GPIB_ERR := ⟨3⟩
def ENOL : GPIB_ERR := ⟨2⟩
def ECIC : GPIB_ERR := ⟨1⟩
def NGER : GPIB_ERR := ⟨0⟩

/-- `GPIB_ERR(i)` for an integer reply: the value is kept. -/
def decode (i : Int) : GPIB_ERR := ⟨i⟩

end GPIB_ERR

namespace SERIAL_ERR

def EFRM : SERIAL_ERR := ⟨4⟩
def EOFL : SERIAL_ERR := ⟨3⟩
def EORN : SERIAL_ERR := ⟨2⟩
def EPAR : SERIAL_ERR := ⟨1⟩
def NSER : SERIAL_ERR := ⟨0⟩

/-- `SERIAL_ERR(i)` for an integer reply: the value is kept. -/
def decode (i : Int) : SERIAL_ERR := ⟨i⟩

end SERIAL_ERR

/-- An event on the shared serial connection (or on the logger), in the
order the adapter performs them. -/
inductive Ev where
  /-- `flush_read_buffer()` on the underlying VISA adapter. -/
  | flush : Ev
  /-- A string sent to the connection by `super().write(...)`. -/
  | write (s : List Char) : Ev
  /-- `sleep(...)`, in milliseconds. -/
  | sleep (ms : Nat) : Ev
  /-- One line returned by `super().read()`. -/
  | readLine (s : List Char) : Ev
  /-- `super().read_bytes(count)` returning `bs`. -/
  | readN (count : Int) (bs : List Char) : Ev
  /-- A plain `log.debug` line. -/
  | logDebug : Ev
  /-- The `log.debug` line of `_check_errors` showing the decoded reply. -/
  | logDebugStat (st : GPIB_STATUS) (ge : GPIB_ERR) (se : SERIAL_ERR) (count : Int) : Ev
  /-- The `log.warning` line of `_check_errors`. -/
  | logWarning (ge : GPIB_ERR) (se : SERIAL_ERR) : Ev
  /-- The deprecation `log.warn` line of `ask`. -/
  | logWarnDeprecated : Ev
deriving DecidableEq

/-- The strings written to the connection during a trace, in order. -/
def writesOf (tr : List Ev) : List (List Char) :=
  tr.filterMap fun e => match e with | Ev.write s => some s | _ => none

/-- The lines read from the connection during a trace, in order. -/
def readsOf (tr : List Ev) : List (List Char) :=
  tr.filterMap fun e => match e with | Ev.readLine s => some s | _ => none

/-- f-string rendering of `self.address` (an `int` or `None`). -/
def pyShowAddr : Option Int → List Char
  | none => chars "None"
  | some i => pyShowInt i

/-- Hex digit as Python `repr` of bytes uses (lowercase). -/
def hexDigitChar (n : Nat) : Char :=
  if n < 10 then Char.ofNat (48 + n) else Char.ofNat (87 + n)

/-- One byte inside Python `repr` of a bytes object quoted with `q`. -/
def pyByteEscape (q : Char) (c : Char) : List Char :=
  if c = '\\' then ['\\', '\\']
  else if c = q then ['\\', q]
  else if c = '\t' then ['\\', 't']
  else if c = '\n' then ['\\', 'n']
  else if c = '\r' then ['\\', 'r']
  else if 32 ≤ c.toNat ∧ c.toNat ≤ 126 then [c]
  else ['\\', 'x', hexDigitChar (c.toNat / 16), hexDigitChar (c.toNat % 16)]

/-- Python `repr` of a bytes object, as an f-string interpolates it. -/
def pyBytesRepr (data : List Char) : List Char :=
  let q : Char := if data.contains '\'' ∧ ¬ data.contains '"' then '"' else '\''
  'b' :: q :: (data.flatMap (pyByteEscape q) ++ [q])

namespace NI_GPIB_232

/-- `f"wrt {self.address} \n  {command}"`. -/
def wrt_command (a : Option Int) (c : List Char) : List Char :=
  chars "wrt " ++ (pyShowAddr a ++ (chars " \n  " ++ c))

/-- `f"rd {self.address}"`. -/
def rd_command (a : Option Int) : List Char :=
  chars "rd " ++ pyShowAddr a

/-- `f"rd #{count} {self.address}"`. -/
def rd_count_command (a : Option Int) (count : Int) : List Char :=
  chars "rd #" ++ (pyShowInt count ++ (' ' :: pyShowAddr a))

/-- `f"clr  {self.address}"`. -/
def clr_command (a : Option Int) : List Char :=
  chars "clr  " ++ pyShowAddr a

/-- `f"trg {self.address}"`. -/
def trg_command (a : Option Int) : List Char :=
  chars "trg " ++ pyShowAddr a

/-- `f"EOT {int(value)}"`. -/
def eot_set_command (value : Bool) : List Char :=
  chars "EOT " ++ pyShowInt (if value then 1 else 0)

/-- `f"cmd  #{len(data)}\n {data}"` for a bytes object `data`. -/
def cmd_command (data : List Char) : List Char :=
  chars "cmd  #" ++ (pyShowNat data.length ++ ('\n' :: ' ' :: pyBytesRepr data))

/-- `f"pct  {primary_address}+{secondary_address}"`. -/
def pct_command (p s : Int) : List Char :=
  chars "pct  " ++ (pyShowInt p ++ ('+' :: pyShowInt s))

/-- `_check_errors`: flush, query `stat n`, read and decode the four reply
lines, log them at debug level, log a warning when the `ERR` bit of the GPIB
status is set, then write `stat`.  Consumes four lines from the reply
supply; `none` models a raised exception (missing line or `ValueError`). -/
def check_errors (replies : List (List Char)) :
    Option (Unit × List Ev × List (List Char)) :=
  match replies with
  | l1 :: l2 :: l3 :: l4 :: rest =>
    match pyInt l1, pyInt l2, pyInt l3, pyInt l4 with
    | some v1, some v2, some v3, some v4 =>
      let gpib_stat := GPIB_STATUS.decode v1
      let gpib_err := GPIB_ERR.decode v2
      let ser_err := SERIAL_ERR.decode v3
      let count := v4
      let warnEvs : List Ev :=
        if (gpib_stat.land GPIB_STATUS.ERR).val ≠ 0 then
          [Ev.logWarning (GPIB_ERR.decode gpib_err.val) (SERIAL_ERR.decode ser_err.val)]
        else []
      some ((),
        [Ev.flush, Ev.write (chars "stat n"), Ev.readLine l1, Ev.readLine l2,
         Ev.readLine l3, Ev.readLine l4,
         Ev.logDebugStat gpib_stat gpib_err ser_err count] ++ warnEvs ++
        [Ev.write (chars "stat")],
        rest)
    | _, _, _, _ => none
  | _ => none

/-- `_assert_trigger`. -/
def assert_trigger (a : Option Int) : List Ev :=
  [Ev.write (trg_command a)]

/-- The `eoi` property getter: `write "EOT"`, read one line, `bool(int(...))`. -/
def eoi_get (replies : List (List Char)) :
    Option (Bool × List Ev × List (List Char)) :=
  match replies with
  | [] => none
  | l :: rest =>
    match pyInt l with
    | none => none
    | some v => some (v != 0, [Ev.write (chars "EOT"), Ev.readLine l], rest)

/-- The `eoi` property setter. -/
def eoi_set (value : Bool) : List Ev :=
  [Ev.write (eot_set_command value)]

/-- The `version` property: flush, write `id \r`, sleep 20 ms, read 71 bytes
(`bs` is what the connection yields). -/
def version (bs : List Char) : List Char × List Ev :=
  (bs, [Ev.flush, Ev.write (chars "id \r"), Ev.sleep 20, Ev.readN 71 bs])

/-- `clear`. -/
def clear (a : Option Int) : List Ev :=
  [Ev.write (clr_command a)]

/-- `send_command(data)`: write the `cmd` block then `_check_errors`. -/
def send_command (data : List Char) (replies : List (List Char)) :
    Option (Unit × List Ev × List (List Char)) :=
  match check_errors replies with
  | none => none
  | some (_, tr, rem) => some ((), Ev.write (cmd_command data) :: tr, rem)

/-- `pass_control(primary_address, secondary_address)`. -/
def pass_control (p s : Int) : List Ev :=
  [Ev.write (pct_command p s)]

/-- `set_rsc`. -/
def set_rsc : List Ev :=
  [Ev.write (chars "rsc  1")]

/-- `send_ifc`. -/
def send_ifc : List Ev :=
  [Ev.write (chars "sic 0.0002")]

/-- `write(command)`: send the single addressed string
`f"wrt {self.address} \n  {command}"`, then `_check_errors`. -/
def write (a : Option Int) (command : List Char) (replies : List (List Char)) :
    Option (Unit × List Ev × List (List Char)) :=
  match check_errors replies with
  | none => none
  | some (_, tr, rem) => some ((), Ev.write (wrt_command a command) :: tr, rem)

/-- `write_bytes(command)`: identical body to `write`. -/
def write_bytes (a : Option Int) (command : List Char) (replies : List (List Char)) :
    Option (Unit × List Ev × List (List Char)) :=
  match check_errors replies with
  | none => none
  | some (_, tr, rem) => some ((), Ev.write (wrt_command a command) :: tr, rem)

/-- `read()`: debug log, flush, write `rd <addr>`, sleep 20 ms, read one
line, `_check_errors`, and return the line read before the check. -/
def read (a : Option Int) (replies : List (List Char)) :
    Option (List Char × List Ev × List (List Char)) :=
  match replies with
  | [] => none
  | l :: rest =>
    match check_errors rest with
    | none => none
    | some (_, tr, rem) =>
      some (l, Ev.logDebug :: Ev.flush :: Ev.write (rd_command a) :: Ev.sleep 20 ::
               Ev.readLine l :: tr, rem)

/-- `read_bytes(count)`: `count == -1` is replaced by 255, then flush, write
`rd #<count> <addr>`, sleep 20 ms, read `count` bytes (the connection
yields `bs`), `_check_errors`, return the bytes. -/
def read_bytes (a : Option Int) (count : Int) (bs : List Char)
    (replies : List (List Char)) :
    Option (List Char × List Ev × List (List Char)) :=
  let count2 := if count = -1 then 255 else count
  match check_errors replies with
  | none => none
  | some (_, tr, rem) =>
    some (bs, Ev.logDebug :: Ev.flush :: Ev.write (rd_count_command a count2) ::
              Ev.sleep 20 :: Ev.readN count2 bs :: tr, rem)

/-- `ask(command)`: deprecation warning, flush, addressed write, `sleep(0.0)`,
then `self.read()`. -/
def ask (a : Option Int) (command : List Char) (replies : List (List Char)) :
    Option (List Char × List Ev × List (List Char)) :=
  match read a replies with
  | none => none
  | some (l, tr, rem) =>
    some (l, Ev.logWarnDeprecated :: Ev.flush :: Ev.write (wrt_command a command) ::
             Ev.sleep 0 :: tr, rem)

/-- The adapter instance state: `__init__` stores the `address` argument
(no method ever assigns it again). -/
structure NIState where
  address : Option Int
deriving DecidableEq

/-- `__init__(resource_name, address, ...)`: store the address unvalidated,
write `EOS D`, flush; when the resource is not itself an `NI_GPIB_232`
(`fresh`), also run the `eoi` setter. -/
def init (address : Option Int) (fresh : Bool) (eoi : Bool) : NIState × List Ev :=
  (⟨address⟩, [Ev.write (chars "EOS D"), Ev.flush] ++ if fresh then eoi_set eoi else [])

/-- `gpib(address)`: a new `NI_GPIB_232` sharing the connection; the
resource is the adapter itself, so the `fresh` branch is skipped. -/
def gpib (_s : NIState) (address : Option Int) (eoi : Bool) : NIState × List Ev :=
  init address false eoi

end NI_GPIB_232

namespace NI_GPIB_232

/-- A call of one of the adapter's methods on an existing instance, with its
Python arguments (`bs` is what the connection yields to a byte read). -/
inductive AdapterOp where
  | checkErrorsOp : AdapterOp
  | assertTriggerOp : AdapterOp
  | eoiGetOp : AdapterOp
  | eoiSetOp (v : Bool) : AdapterOp
  | versionOp (bs : List Char) : AdapterOp
  | askOp (c : List Char) : AdapterOp
  | clearOp : AdapterOp
  | sendCommandOp (data : List Char) : AdapterOp
  | passControlOp (p sec : Int) : AdapterOp
  | setRscOp : AdapterOp
  | sendIfcOp : AdapterOp
  | writeOp (c : List Char) : AdapterOp
  | writeBytesOp (c : List Char) : AdapterOp
  | readOp : AdapterOp
  | readBytesOp (count : Int) (bs : List Char) : AdapterOp
deriving DecidableEq

/-- Run a method on an instance: the resulting instance state (no method
body assigns `self.address`, so it is the state passed in), the event
trace, and the unconsumed reply lines.  `none` models a raised exception. -/
def runOp (op : AdapterOp) (s : NIState) (replies : List (List Char)) :
    Option (NIState × List Ev × List (List Char)) :=
  match op with
  | .checkErrorsOp => (check_errors replies).map fun r => (s, r.2.1, r.2.2)
  | .assertTriggerOp => some (s, assert_trigger s.address, replies)
  | .eoiGetOp => (eoi_get replies).map fun r => (s, r.2.1, r.2.2)
  | .eoiSetOp v => some (s, eoi_set v, replies)
  | .versionOp bs => some (s, (version bs).2, replies)
  | .askOp c => (ask s.address c replies).map fun r => (s, r.2.1, r.2.2)
  | .clearOp => some (s, clear s.address, replies)
  | .sendCommandOp data => (send_command data replies).map fun r => (s, r.2.1, r.2.2)
  | .passControlOp p sec => some (s, pass_control p sec, replies)
  | .setRscOp => some (s, set_rsc, replies)
  | .sendIfcOp => some (s, send_ifc, replies)
  | .writeOp c => (write s.address c replies).map fun r => (s, r.2.1, r.2.2)
  | .writeBytesOp c => (write_bytes s.address c replies).map fun r => (s, r.2.1, r.2.2)
  | .readOp => (read s.address replies).map fun r => (s, r.2.1, r.2.2)
  | .readBytesOp count bs => (read_bytes s.address count bs replies).map fun r => (s, r.2.1, r.2.2)

/-- The GPIB-232 command words the spec lists for the adapter's command set. -/
def specCommandWords : List (List Char) :=
  [chars "wrt", chars "rd", chars "clr", chars "stat", chars "trg",
   chars "EOT", chars "id"]

/-- The command words actually used by the adapter source: the spec's seven
plus `cmd`, `pct`, `rsc`, `sic` and `EOS`. -/
def sourceCommandWords : List (List Char) :=
  specCommandWords ++ [chars "cmd", chars "pct", chars "rsc", chars "sic", chars "EOS"]

/-- Every string written during the trace starts with a word of `words`. -/
def WritesStartWith (words : List (List Char)) (tr : List Ev) : Prop :=
  ∀ s ∈ writesOf tr, ∃ t ∈ words, t <+: s

/-- The documented address range: `None` (the controller itself) or 0–30. -/
def AddrOK : Option Int → Prop
  | none => True
  | some n => 0 ≤ n ∧ n ≤ 30

instance : DecidablePred AddrOK := by
  intro a
  cases a <;> simp [AddrOK] <;> infer_instance

end NI_GPIB_232

/-!
## HP3314A (`pymeasure/instruments/hp/hp3314A.py`)

Only the pieces claim C5 exercises: the `symmetry` property's write-command
format string and its `get_process` parser.
-/

namespace HP3314A

/-- The `symmetry` write command `"SY%dPS"` instantiated at an integer. -/
def symmetry_set_command (n : Int) : List Char :=
  chars "SY" ++ (pyShowInt n ++ chars "PS")

/-- The `symmetry` property's `get_process`:
`lambda v: int(v.lstrip(b'PH').rstrip(b'DG'))`. -/
def symmetry_get_process (v : List Char) : Option Int :=
  pyInt (pyRstrip (chars "DG") (pyLstrip (chars "PH") v))

end HP3314A

/-!
## HP853A (`pymeasure/instruments/hp/hp853a.py`)

The `check_errors` method over the raw `IERR` reply string `r`.
-/

namespace HP853A

/-- The character set of `.strip(' ,\r\n')`. -/
def stripSet : List Char := [' ', ',', '\r', '\n']

/-- The list `errors` as built by `check_errors` before indexing:
first line of the reply, stripped, split on `ERROR` with the last piece
dropped, each entry stripped and suffixed with `" ERROR"`. -/
def entries (r : List Char) : List (List Char) :=
  let errors_response := pyStrip stripSet ((pySplit (chars "\r\n") r).headI)
  ((pySplit (chars "ERROR") errors_response).dropLast).map
    (fun e => pyStrip pyWhitespace e ++ chars " ERROR")

/-- `HP853A.check_errors` on the `IERR` reply `r`: `none` models the
`IndexError` raised by `errors[0]` on an empty list. -/
def check_errors (r : List Char) : Option (List (List Char)) :=
  match entries r with
  | [] => none
  | e0 :: rest => if e0 = chars "NO ERROR" then some [] else some (e0 :: rest)

end HP853A

/-! ## Helper lemmas about traces -/

@[simp] theorem writesOf_nil : writesOf [] = [] := rfl

@[simp] theorem writesOf_append (a b : List Ev) :
    writesOf (a ++ b) = writesOf a ++ writesOf b :=
  List.filterMap_append a b _

@[simp] theorem writesOf_cons_write (s : List Char) (tr : List Ev) :
    writesOf (Ev.write s :: tr) = s :: writesOf tr := rfl

@[simp] theorem writesOf_cons_flush (tr : List Ev) :
    writesOf (Ev.flush :: tr) = writesOf tr := rfl

@[simp] theorem writesOf_cons_sleep (ms : Nat) (tr : List Ev) :
    writesOf (Ev.sleep ms :: tr) = writesOf tr := rfl

@[simp] theorem writesOf_cons_readLine (s : List Char) (tr : List Ev) :
    writesOf (Ev.readLine s :: tr) = writesOf tr := rfl

@[simp] theorem writesOf_cons_readN (c : Int) (bs : List Char) (tr : List Ev) :
    writesOf (Ev.readN c bs :: tr) = writesOf tr := rfl

@[simp] theorem writesOf_cons_logDebug (tr : List Ev) :
    writesOf (Ev.logDebug :: tr) = writesOf tr := rfl

@[simp] theorem writesOf_cons_logDebugStat (st ge se cnt tr) :
    writesOf (Ev.logDebugStat st ge se cnt :: tr) = writesOf tr := rfl

@[simp] theorem writesOf_cons_logWarning (ge se tr) :
    writesOf (Ev.logWarning ge se :: tr) = writesOf tr := rfl

@[simp] theorem writesOf_cons_logWarnDeprecated (tr : List Ev) :
    writesOf (Ev.logWarnDeprecated :: tr) = writesOf tr := rfl

@[simp] theorem readsOf_nil : readsOf [] = [] := rfl

@[simp] theorem readsOf_append (a b : List Ev) :
    readsOf (a ++ b) = readsOf a ++ readsOf b :=
  List.filterMap_append a b _

@[simp] theorem readsOf_cons_readLine (s : List Char) (tr : List Ev) :
    readsOf (Ev.readLine s :: tr) = s :: readsOf tr := rfl

@[simp] theorem readsOf_cons_write (s : List Char) (tr : List Ev) :
    readsOf (Ev.write s :: tr) = readsOf tr := rfl

@[simp] theorem readsOf_cons_flush (tr : List Ev) :
    readsOf (Ev.flush :: tr) = readsOf tr := rfl

@[simp] theorem readsOf_cons_sleep (ms : Nat) (tr : List Ev) :
    readsOf (Ev.sleep ms :: tr) = readsOf tr := rfl

@[simp] theorem readsOf_cons_readN (c : Int) (bs : List Char) (tr : List Ev) :
    readsOf (Ev.readN c bs :: tr) = readsOf tr := rfl

@[simp] theorem readsOf_cons_logDebug (tr : List Ev) :
    readsOf (Ev.logDebug :: tr) = readsOf tr := rfl

@[simp] theorem readsOf_cons_logDebugStat (st ge se cnt tr) :
    readsOf (Ev.logDebugStat st ge se cnt :: tr) = readsOf tr := rfl

@[simp] theorem readsOf_cons_logWarning (ge se tr) :
    readsOf (Ev.logWarning ge se :: tr) = readsOf tr := rfl

@[simp] theorem readsOf_cons_logWarnDeprecated (tr : List Ev) :
    readsOf (Ev.logWarnDeprecated :: tr) = readsOf tr := rfl

namespace NI_GPIB_232

/-- The trace of a successful `_check_errors` run over reply lines
`l1 … l4` parsing to `v1 … v4`. -/
def checkTrace (l1 l2 l3 l4 : List Char) (v1 v2 v3 v4 : Int) : List Ev :=
  [Ev.flush, Ev.write (chars "stat n"), Ev.readLine l1, Ev.readLine l2,
   Ev.readLine l3, Ev.readLine l4,
   Ev.logDebugStat (GPIB_STATUS.decode v1) (GPIB_ERR.decode v2)
     (SERIAL_ERR.decode v3) v4] ++
  (if ((GPIB_STATUS.decode v1).land GPIB_STATUS.ERR).val ≠ 0 then
     [Ev.logWarning (GPIB_ERR.decode v2) (SERIAL_ERR.decode v3)]
   else []) ++
  [Ev.write (chars "stat")]

/-- Forward evaluation of `_check_errors` on a well-formed status reply. -/
theorem check_errors_eval (l1 l2 l3 l4 : List Char) (rest : List (List Char))
    (v1 v2 v3 v4 : Int) (h1 : pyInt l1 = some v1) (h2 : pyInt l2 = some v2)
    (h3 : pyInt l3 = some v3) (h4 : pyInt l4 = some v4) :
    check_errors (l1 :: l2 :: l3 :: l4 :: rest) =
      some ((), checkTrace l1 l2 l3 l4 v1 v2 v3 v4, rest) := by
  simp only [check_errors, h1, h2, h3, h4, checkTrace, GPIB_ERR.decode, SERIAL_ERR.decode]

/-- The writes of any successful `_check_errors` run are exactly the
`stat n` query followed by the trailing `stat` command. -/
theorem check_errors_writes {replies : List (List Char)}
    {r : Unit × List Ev × List (List Char)}
    (h : check_errors replies = some r) :
    writesOf r.2.1 = [chars "stat n", chars "stat"] := by
  match replies with
  | [] => simp [check_errors] at h
  | [l1] => simp [check_errors] at h
  | [l1, l2] => simp [check_errors] at h
  | [l1, l2, l3] => simp [check_errors] at h
  | l1 :: l2 :: l3 :: l4 :: rest =>
    cases hp1 : pyInt l1 with
    | none => simp [check_errors, hp1] at h
    | some v1 =>
      cases hp2 : pyInt l2 with
      | none => simp [check_errors, hp1, hp2] at h
      | some v2 =>
        cases hp3 : pyInt l3 with
        | none => simp [check_errors, hp1, hp2, hp3] at h
        | some v3 =>
          cases hp4 : pyInt l4 with
          | none => simp [check_errors, hp1, hp2, hp3, hp4] at h
          | some v4 =>
            rw [check_errors_eval l1 l2 l3 l4 rest v1 v2 v3 v4 hp1 hp2 hp3 hp4] at h
            cases h
            simp only [checkTrace]
            split <;> simp

end NI_GPIB_232

/-! ## Claims about `_check_errors` and `write` -/

/-- C1: for every `stat n` status query, `NI_GPIB_232._check_errors` reads
exactly four integers from the connection, in order, decoding the first as a
`GPIB_STATUS` bit-flag value, the second as a `GPIB_ERR` value, the third as
a `SERIAL_ERR` value, and the fourth as a plain integer byte count. -/
theorem check_errors_reads_four_integers
    (l1 l2 l3 l4 : List Char) (rest : List (List Char)) (v1 v2 v3 v4 : Int)
    (h1 : pyInt l1 = some v1) (h2 : pyInt l2 = some v2)
    (h3 : pyInt l3 = some v3) (h4 : pyInt l4 = some v4) :
    ∃ tr, NI_GPIB_232.check_errors (l1 :: l2 :: l3 :: l4 :: rest) = some ((), tr, rest) ∧
      readsOf tr = [l1, l2, l3, l4] ∧
      Ev.logDebugStat (GPIB_STATUS.decode v1) (GPIB_ERR.decode v2)
        (SERIAL_ERR.decode v3) v4 ∈ tr := by
  refine ⟨NI_GPIB_232.checkTrace l1 l2 l3 l4 v1 v2 v3 v4,
    NI_GPIB_232.check_errors_eval l1 l2 l3 l4 rest v1 v2 v3 v4 h1 h2 h3 h4, ?_, ?_⟩
  · simp only [NI_GPIB_232.checkTrace]
    split <;> simp
  · simp only [NI_GPIB_232.checkTrace]
    split <;> simp

/-- Witness for C1 at the concrete status reply `1, 2, 3, 4`. -/
theorem check_errors_reads_four_integers_witness :
    ∃ tr, NI_GPIB_232.check_errors [chars "1", chars "2", chars "3", chars "4"] =
        some ((), tr, []) ∧
      readsOf tr = [chars "1", chars "2", chars "3", chars "4"] ∧
      Ev.logDebugStat (GPIB_STATUS.decode 1) (GPIB_ERR.decode 2)
        (SERIAL_ERR.decode 3) 4 ∈ tr :=
  check_errors_reads_four_integers (chars "1") (chars "2") (chars "3") (chars "4")
    [] 1 2 3 4 (by decide) (by decide) (by decide) (by decide)

/-- C2: `NI_GPIB_232.write(command)` sends exactly one string to the shared
connection, the addressing command `wrt <addr>` followed by the command
(`f"wrt {self.address} \n  {command}"`), and then invokes `_check_errors`. -/
theorem write_sends_single_addressed_string
    (a : Option Int) (c : List Char) (replies : List (List Char))
    (ctr : List Ev) (rem : List (List Char))
    (h : NI_GPIB_232.check_errors replies = some ((), ctr, rem)) :
    NI_GPIB_232.write a c replies =
      some ((), Ev.write (NI_GPIB_232.wrt_command a c) :: ctr, rem) ∧
    NI_GPIB_232.wrt_command a c =
      chars "wrt " ++ (pyShowAddr a ++ (chars " \n  " ++ c)) ∧
    writesOf (Ev.write (NI_GPIB_232.wrt_command a c) :: ctr) =
      NI_GPIB_232.wrt_command a c :: writesOf ctr := by
  refine ⟨?_, rfl, rfl⟩
  simp only [NI_GPIB_232.write, h]

/-- Witness for C2: writing `QFR` at address 7 with an all-zero status reply. -/
theorem write_sends_single_addressed_string_witness :
    NI_GPIB_232.write (some 7) (chars "QFR")
        [chars "0", chars "0", chars "0", chars "0"] =
      some ((), Ev.write (NI_GPIB_232.wrt_command (some 7) (chars "QFR")) ::
        NI_GPIB_232.checkTrace (chars "0") (chars "0") (chars "0") (chars "0") 0 0 0 0, []) ∧
    NI_GPIB_232.wrt_command (some 7) (chars "QFR") =
      chars "wrt " ++ (pyShowAddr (some 7) ++ (chars " \n  " ++ chars "QFR")) ∧
    writesOf (Ev.write (NI_GPIB_232.wrt_command (some 7) (chars "QFR")) ::
        NI_GPIB_232.checkTrace (chars "0") (chars "0") (chars "0") (chars "0") 0 0 0 0) =
      NI_GPIB_232.wrt_command (some 7) (chars "QFR") ::
        writesOf (NI_GPIB_232.checkTrace (chars "0") (chars "0") (chars "0") (chars "0") 0 0 0 0) :=
  write_sends_single_addressed_string (some 7) (chars "QFR")
    [chars "0", chars "0", chars "0", chars "0"]
    (NI_GPIB_232.checkTrace (chars "0") (chars "0") (chars "0") (chars "0") 0 0 0 0) []
    (by decide)

/-- C3: on a well-formed status reply `_check_errors` raises no exception
and returns no value; it logs a warning exactly when the `ERR` bit (32768)
of the GPIB status is set; and it performs no retry: its writes are the one
`stat n` query and the one trailing `stat` command. -/
theorem check_errors_warns_without_raising
    (l1 l2 l3 l4 : List Char) (rest : List (List Char)) (v1 v2 v3 v4 : Int)
    (h1 : pyInt l1 = some v1) (h2 : pyInt l2 = some v2)
    (h3 : pyInt l3 = some v3) (h4 : pyInt l4 = some v4) :
    ∃ tr, NI_GPIB_232.check_errors (l1 :: l2 :: l3 :: l4 :: rest) = some ((), tr, rest) ∧
      GPIB_STATUS.ERR.val = 32768 ∧
      ((∃ ge se, Ev.logWarning ge se ∈ tr) ↔
        ((GPIB_STATUS.decode v1).land GPIB_STATUS.ERR).val ≠ 0) ∧
      writesOf tr = [chars "stat n", chars "stat"] := by
  refine ⟨NI_GPIB_232.checkTrace l1 l2 l3 l4 v1 v2 v3 v4,
    NI_GPIB_232.check_errors_eval l1 l2 l3 l4 rest v1 v2 v3 v4 h1 h2 h3 h4, rfl, ?_, ?_⟩
  · by_cases hcond : ((GPIB_STATUS.decode v1).land GPIB_STATUS.ERR).val ≠ 0
    · refine iff_of_true ⟨GPIB_ERR.decode v2, SERIAL_ERR.decode v3, ?_⟩ hcond
      simp [NI_GPIB_232.checkTrace, hcond]
    · refine iff_of_false ?_ hcond
      rintro ⟨ge, se, hmem⟩
      simp [NI_GPIB_232.checkTrace, hcond] at hmem
  · simp only [NI_GPIB_232.checkTrace]
    split <;> simp

/-- Witness for C3 at a status reply with the `ERR` bit set. -/
theorem check_errors_warns_without_raising_witness :
    ∃ tr, NI_GPIB_232.check_errors
        [chars "32768", chars "1", chars "0", chars "5"] = some ((), tr, []) ∧
      GPIB_STATUS.ERR.val = 32768 ∧
      ((∃ ge se, Ev.logWarning ge se ∈ tr) ↔
        ((GPIB_STATUS.decode 32768).land GPIB_STATUS.ERR).val ≠ 0) ∧
      writesOf tr = [chars "stat n", chars "stat"] :=
  check_errors_warns_without_raising (chars "32768") (chars "1") (chars "0")
    (chars "5") [] 32768 1 0 5 (by decide) (by decide) (by decide) (by decide)

/-- C4 (code bug): the `GPIB_STATUS.TIMO` member is 13684, which is not a
power of two and shares bits with `END` (and others), so `status & TIMO`
does not test a single timeout bit; every other `GPIB_STATUS` member is a
power of two, marking 13684 as a slip for the NI timeout bit 16384. -/
theorem gpib_status_timo_not_single_bit :
    GPIB_STATUS.TIMO.val = 13684 ∧
    (∀ k : Nat, GPIB_STATUS.TIMO.val ≠ (2 : Int) ^ k) ∧
    (GPIB_STATUS.TIMO.land GPIB_STATUS.END).val ≠ 0 ∧
    (∀ m ∈ GPIB_STATUS.members, m ≠ GPIB_STATUS.TIMO →
      ∃ k : Nat, m.val = (2 : Int) ^ k) := by
  refine ⟨rfl, ?_, by decide, ?_⟩
  · intro k
    rcases le_or_lt k 14 with hk | hk
    · interval_cases k <;> decide
    · intro heq
      have h2 : (2 : Int) ^ 15 ≤ 2 ^ k := pow_le_pow_right₀ (by norm_num) (by omega)
      rw [← heq] at h2
      norm_num [GPIB_STATUS.TIMO] at h2
  · intro m hm hne
    fin_cases hm
    · exact ⟨15, by decide⟩
    · exact absurd rfl hne
    · exact ⟨13, by decide⟩
    · exact ⟨12, by decide⟩
    · exact ⟨8, by decide⟩
    · exact ⟨7, by decide⟩
    · exact ⟨6, by decide⟩
    · exact ⟨5, by decide⟩
    · exact ⟨4, by decide⟩
    · exact ⟨3, by decide⟩
    · exact ⟨2, by decide⟩
    · exact ⟨1, by decide⟩
    · exact ⟨0, by decide⟩

/-- C5 (code bug): the `symmetry` property's `get_process` strips the
characters `P`,`H` on the left and `D`,`G` on the right (copy-pasted from
the `phase` property), which leaves the reply `SY50PS` for the set command
`SY%dPS` at 50 untouched, so `int()` raises `ValueError` instead of
returning 50. -/
theorem symmetry_get_process_rejects_own_reply :
    HP3314A.symmetry_set_command 50 = chars "SY50PS" ∧
    HP3314A.symmetry_get_process (HP3314A.symmetry_set_command 50) = none := by
  exact ⟨by decide, by decide⟩

/-- A trace whose writes are a known list all starting with command words. -/
theorem wsw_of_writes_eq (ws : List (List Char)) {words : List (List Char)}
    {tr : List Ev} (h : writesOf tr = ws)
    (hws : ∀ x ∈ ws, ∃ t ∈ words, t <+: x) :
    NI_GPIB_232.WritesStartWith words tr := by
  intro x hx
  rw [h] at hx
  exact hws x hx

/-- A command built as `lit ++ x` starts with any word prefixing `lit`. -/
theorem startsWord (t : List Char) {words : List (List Char)} {lit : List Char}
    (ht : t ∈ words) (hp : t <+: lit) (x : List Char) :
    ∃ t' ∈ words, t' <+: lit ++ x :=
  ⟨t, ht, pre_append_of_pre hp x⟩

/-- C6 counterexample: `set_rsc` writes the command `rsc  1`, which starts
with none of the seven words `wrt`, `rd`, `clr`, `stat`, `trg`, `EOT`, `id`
the spec lists for the adapter's command set. -/
theorem set_rsc_write_outside_spec_words :
    writesOf NI_GPIB_232.set_rsc = [chars "rsc  1"] ∧
    ∀ t ∈ NI_GPIB_232.specCommandWords, ¬ t <+: chars "rsc  1" := by
  exact ⟨rfl, by decide⟩


/-- C6 (amended): every command string the adapter writes to the serial
connection — in any successful method run, in `__init__`, and in `gpib` —
begins with one of the command words actually used by the source:
`wrt`, `rd`, `clr`, `stat`, `trg`, `EOT`, `id`, `cmd`, `pct`, `rsc`,
`sic`, `EOS`. -/
theorem adapter_writes_start_with_command_word
    (op : NI_GPIB_232.AdapterOp) (s : NI_GPIB_232.NIState)
    (replies : List (List Char)) (s2 : NI_GPIB_232.NIState) (tr : List Ev)
    (rem : List (List Char))
    (h : NI_GPIB_232.runOp op s replies = some (s2, tr, rem))
    (a : Option Int) (fresh eoiv : Bool) :
    NI_GPIB_232.WritesStartWith NI_GPIB_232.sourceCommandWords tr ∧
    NI_GPIB_232.WritesStartWith NI_GPIB_232.sourceCommandWords
      (NI_GPIB_232.init a fresh eoiv).2 ∧
    NI_GPIB_232.WritesStartWith NI_GPIB_232.sourceCommandWords
      (NI_GPIB_232.gpib s a eoiv).2 := by
  refine ⟨?_, ?_, ?_⟩
  · cases op with
    | checkErrorsOp =>
      simp only [NI_GPIB_232.runOp] at h
      obtain ⟨r, hc, heq⟩ := Option.map_eq_some'.mp h
      cases heq
      exact wsw_of_writes_eq _ (NI_GPIB_232.check_errors_writes hc) (by decide)
    | assertTriggerOp =>
      simp only [NI_GPIB_232.runOp, Option.some.injEq, Prod.mk.injEq] at h
      obtain ⟨-, h2, -⟩ := h
      refine wsw_of_writes_eq ([NI_GPIB_232.trg_command s.address])
        (by rw [← h2]; rfl) ?_
      intro x hx
      rcases List.mem_singleton.mp hx with rfl
      exact startsWord (chars "trg") (by decide) (by decide) _
    | eoiGetOp =>
      simp only [NI_GPIB_232.runOp] at h
      obtain ⟨r, hc, heq⟩ := Option.map_eq_some'.mp h
      cases heq
      cases replies with
      | nil => simp [NI_GPIB_232.eoi_get] at hc
      | cons l rest =>
        cases hp : pyInt l with
        | none => simp [NI_GPIB_232.eoi_get, hp] at hc
        | some v =>
          simp only [NI_GPIB_232.eoi_get, hp, Option.some.injEq] at hc
          refine wsw_of_writes_eq ([chars "EOT"]) ?_ (by decide)
          rw [← hc]
          rfl
    | eoiSetOp v =>
      simp only [NI_GPIB_232.runOp, Option.some.injEq, Prod.mk.injEq] at h
      obtain ⟨-, h2, -⟩ := h
      refine wsw_of_writes_eq ([NI_GPIB_232.eot_set_command v])
        (by rw [← h2]; rfl) ?_
      intro x hx
      rcases List.mem_singleton.mp hx with rfl
      exact startsWord (chars "EOT") (by decide) (by decide) _
    | versionOp bs =>
      simp only [NI_GPIB_232.runOp, Option.some.injEq, Prod.mk.injEq] at h
      obtain ⟨-, h2, -⟩ := h
      exact wsw_of_writes_eq ([chars "id \r"]) (by rw [← h2]; rfl) (by decide)
    | askOp c =>
      simp only [NI_GPIB_232.runOp] at h
      obtain ⟨r, hask, heq⟩ := Option.map_eq_some'.mp h
      cases heq
      cases replies with
      | nil => simp [NI_GPIB_232.ask, NI_GPIB_232.read] at hask
      | cons l rest =>
        cases hc : NI_GPIB_232.check_errors rest with
        | none => simp [NI_GPIB_232.ask, NI_GPIB_232.read, hc] at hask
        | some rr =>
          obtain ⟨u, ctr, crem⟩ := rr
          simp only [NI_GPIB_232.ask, NI_GPIB_232.read, hc, Option.some.injEq] at hask
          have hcw : writesOf ctr = [chars "stat n", chars "stat"] :=
            NI_GPIB_232.check_errors_writes hc
          have hw : writesOf r.2.1 =
              NI_GPIB_232.wrt_command s.address c :: NI_GPIB_232.rd_command s.address ::
                writesOf ctr := by
            rw [← hask]
            simp
          rw [hcw] at hw
          refine wsw_of_writes_eq _ hw ?_
          intro x hx
          rcases List.mem_cons.mp hx with rfl | hx
          · exact startsWord (chars "wrt") (by decide) (by decide) _
          rcases List.mem_cons.mp hx with rfl | hx
          · exact startsWord (chars "rd") (by decide) (by decide) _
          · have hall : ∀ y ∈ [chars "stat n", chars "stat"],
                ∃ t ∈ NI_GPIB_232.sourceCommandWords, t <+: y := by decide
            exact hall x hx
    | clearOp =>
      simp only [NI_GPIB_232.runOp, Option.some.injEq, Prod.mk.injEq] at h
      obtain ⟨-, h2, -⟩ := h
      refine wsw_of_writes_eq ([NI_GPIB_232.clr_command s.address])
        (by rw [← h2]; rfl) ?_
      intro x hx
      rcases List.mem_singleton.mp hx with rfl
      exact startsWord (chars "clr") (by decide) (by decide) _
    | sendCommandOp data =>
      simp only [NI_GPIB_232.runOp] at h
      obtain ⟨r, hsc, heq⟩ := Option.map_eq_some'.mp h
      cases heq
      cases hc : NI_GPIB_232.check_errors replies with
      | none => simp [NI_GPIB_232.send_command, hc] at hsc
      | some rr =>
        obtain ⟨u, ctr, crem⟩ := rr
        simp only [NI_GPIB_232.send_command, hc, Option.some.injEq] at hsc
        have hcw : writesOf ctr = [chars "stat n", chars "stat"] :=
          NI_GPIB_232.check_errors_writes hc
        have hw : writesOf r.2.1 = NI_GPIB_232.cmd_command data :: writesOf ctr := by
          rw [← hsc]
          simp
        rw [hcw] at hw
        refine wsw_of_writes_eq _ hw ?_
        intro x hx
        rcases List.mem_cons.mp hx with rfl | hx
        · exact startsWord (chars "cmd") (by decide) (by decide) _
        · have hall : ∀ y ∈ [chars "stat n", chars "stat"],
              ∃ t ∈ NI_GPIB_232.sourceCommandWords, t <+: y := by decide
          exact hall x hx
    | passControlOp p sec =>
      simp only [NI_GPIB_232.runOp, Option.some.injEq, Prod.mk.injEq] at h
      obtain ⟨-, h2, -⟩ := h
      refine wsw_of_writes_eq ([NI_GPIB_232.pct_command p sec])
        (by rw [← h2]; rfl) ?_
      intro x hx
      rcases List.mem_singleton.mp hx with rfl
      exact startsWord (chars "pct") (by decide) (by decide) _
    | setRscOp =>
      simp only [NI_GPIB_232.runOp, Option.some.injEq, Prod.mk.injEq] at h
      obtain ⟨-, h2, -⟩ := h
      exact wsw_of_writes_eq ([chars "rsc  1"]) (by rw [← h2]; rfl) (by decide)
    | sendIfcOp =>
      simp only [NI_GPIB_232.runOp, Option.some.injEq, Prod.mk.injEq] at h
      obtain ⟨-, h2, -⟩ := h
      exact wsw_of_writes_eq ([chars "sic 0.0002"]) (by rw [← h2]; rfl) (by decide)
    | writeOp c =>
      simp only [NI_GPIB_232.runOp] at h
      obtain ⟨r, hwr, heq⟩ := Option.map_eq_some'.mp h
      cases heq
      cases hc : NI_GPIB_232.check_errors replies with
      | none => simp [NI_GPIB_232.write, hc] at hwr
      | some rr =>
        obtain ⟨u, ctr, crem⟩ := rr
        simp only [NI_GPIB_232.write, hc, Option.some.injEq] at hwr
        have hcw : writesOf ctr = [chars "stat n", chars "stat"] :=
          NI_GPIB_232.check_errors_writes hc
        have hw : writesOf r.2.1 =
            NI_GPIB_232.wrt_command s.address c :: writesOf ctr := by
          rw [← hwr]
          simp
        rw [hcw] at hw
        refine wsw_of_writes_eq _ hw ?_
        intro x hx
        rcases List.mem_cons.mp hx with rfl | hx
        · exact startsWord (chars "wrt") (by decide) (by decide) _
        · have hall : ∀ y ∈ [chars "stat n", chars "stat"],
              ∃ t ∈ NI_GPIB_232.sourceCommandWords, t <+: y := by decide
          exact hall x hx
    | writeBytesOp c =>
      simp only [NI_GPIB_232.runOp] at h
      obtain ⟨r, hwr, heq⟩ := Option.map_eq_some'.mp h
      cases heq
      cases hc : NI_GPIB_232.check_errors replies with
      | none => simp [NI_GPIB_232.write_bytes, hc] at hwr
      | some rr =>
        obtain ⟨u, ctr, crem⟩ := rr
        simp only [NI_GPIB_232.write_bytes, hc, Option.some.injEq] at hwr
        have hcw : writesOf ctr = [chars "stat n", chars "stat"] :=
          NI_GPIB_232.check_errors_writes hc
        have hw : writesOf r.2.1 =
            NI_GPIB_232.wrt_command s.address c :: writesOf ctr := by
          rw [← hwr]
          simp
        rw [hcw] at hw
        refine wsw_of_writes_eq _ hw ?_
        intro x hx
        rcases List.mem_cons.mp hx with rfl | hx
        · exact startsWord (chars "wrt") (by decide) (by decide) _
        · have hall : ∀ y ∈ [chars "stat n", chars "stat"],
              ∃ t ∈ NI_GPIB_232.sourceCommandWords, t <+: y := by decide
          exact hall x hx
    | readOp =>
      simp only [NI_GPIB_232.runOp] at h
      obtain ⟨r, hrd, heq⟩ := Option.map_eq_some'.mp h
      cases heq
      cases replies with
      | nil => simp [NI_GPIB_232.read] at hrd
      | cons l rest =>
        cases hc : NI_GPIB_232.check_errors rest with
        | none => simp [NI_GPIB_232.read, hc] at hrd
        | some rr =>
          obtain ⟨u, ctr, crem⟩ := rr
          simp only [NI_GPIB_232.read, hc, Option.some.injEq] at hrd
          have hcw : writesOf ctr = [chars "stat n", chars "stat"] :=
            NI_GPIB_232.check_errors_writes hc
          have hw : writesOf r.2.1 =
              NI_GPIB_232.rd_command s.address :: writesOf ctr := by
            rw [← hrd]
            simp
          rw [hcw] at hw
          refine wsw_of_writes_eq _ hw ?_
          intro x hx
          rcases List.mem_cons.mp hx with rfl | hx
          · exact startsWord (chars "rd") (by decide) (by decide) _
          · have hall : ∀ y ∈ [chars "stat n", chars "stat"],
                ∃ t ∈ NI_GPIB_232.sourceCommandWords, t <+: y := by decide
            exact hall x hx
    | readBytesOp count bs =>
      simp only [NI_GPIB_232.runOp] at h
      obtain ⟨r, hrd, heq⟩ := Option.map_eq_some'.mp h
      cases heq
      cases hc : NI_GPIB_232.check_errors replies with
      | none => simp [NI_GPIB_232.read_bytes, hc] at hrd
      | some rr =>
        obtain ⟨u, ctr, crem⟩ := rr
        simp only [NI_GPIB_232.read_bytes, hc, Option.some.injEq] at hrd
        have hcw : writesOf ctr = [chars "stat n", chars "stat"] :=
          NI_GPIB_232.check_errors_writes hc
        have hw : writesOf r.2.1 =
            NI_GPIB_232.rd_count_command s.address
              (if count = -1 then 255 else count) :: writesOf ctr := by
          rw [← hrd]
          simp
        rw [hcw] at hw
        refine wsw_of_writes_eq _ hw ?_
        intro x hx
        rcases List.mem_cons.mp hx with rfl | hx
        · exact startsWord (chars "rd") (by decide) (by decide) _
        · have hall : ∀ y ∈ [chars "stat n", chars "stat"],
              ∃ t ∈ NI_GPIB_232.sourceCommandWords, t <+: y := by decide
          exact hall x hx
  · refine wsw_of_writes_eq
      (chars "EOS D" :: if fresh then [NI_GPIB_232.eot_set_command eoiv] else []) ?_ ?_
    · simp only [NI_GPIB_232.init, NI_GPIB_232.eoi_set]
      cases fresh <;> rfl
    · intro x hx
      rcases List.mem_cons.mp hx with rfl | hx
      · decide
      · cases fresh with
        | false => cases hx
        | true =>
          rcases List.mem_singleton.mp hx with rfl
          exact startsWord (chars "EOT") (by decide) (by decide) _
  · exact wsw_of_writes_eq ([chars "EOS D"]) rfl (by decide)

/-- Witness for amended C6: a successful `set_rsc` run at address 5. -/
theorem adapter_writes_start_with_command_word_witness :
    NI_GPIB_232.WritesStartWith NI_GPIB_232.sourceCommandWords
      [Ev.write (chars "rsc  1")] ∧
    NI_GPIB_232.WritesStartWith NI_GPIB_232.sourceCommandWords
      (NI_GPIB_232.init (some 5) true true).2 ∧
    NI_GPIB_232.WritesStartWith NI_GPIB_232.sourceCommandWords
      (NI_GPIB_232.gpib ⟨some 5⟩ (some 5) true).2 :=
  adapter_writes_start_with_command_word NI_GPIB_232.AdapterOp.setRscOp ⟨some 5⟩ []
    ⟨some 5⟩ [Ev.write (chars "rsc  1")] [] (by decide) (some 5) true true

/-- C7 counterexample: `__init__` stores any address unvalidated — an
instance constructed with address 42 carries an address outside 0–30. -/
theorem init_stores_out_of_range_address :
    (NI_GPIB_232.init (some 42) true true).1.address = some 42 ∧
    ¬ NI_GPIB_232.AddrOK (some 42) := by
  exact ⟨rfl, by decide⟩

/-- C7 (amended): the address field equals whatever was passed at
construction — directly or through `gpib` — and no adapter method modifies
it; the 0–30-or-`None` invariant therefore persists exactly when it held at
construction. -/
theorem address_fixed_at_construction
    (a : Option Int) (fresh eoiv : Bool) (op : NI_GPIB_232.AdapterOp)
    (s : NI_GPIB_232.NIState) (replies : List (List Char))
    (s2 : NI_GPIB_232.NIState) (tr : List Ev) (rem : List (List Char))
    (h : NI_GPIB_232.runOp op s replies = some (s2, tr, rem)) :
    (NI_GPIB_232.init a fresh eoiv).1.address = a ∧
    (NI_GPIB_232.gpib s a eoiv).1.address = a ∧
    s2.address = s.address ∧
    (NI_GPIB_232.AddrOK s.address → NI_GPIB_232.AddrOK s2.address) := by
  have hs : s2 = s := by
    cases op <;>
      simp only [NI_GPIB_232.runOp, Option.map_eq_some', Option.some.injEq,
        Prod.mk.injEq] at h <;>
      first
      | (obtain ⟨r, -, h1, -, -⟩ := h
         exact h1.symm)
      | (obtain ⟨h1, -, -⟩ := h
         exact h1.symm)
  exact ⟨rfl, rfl, hs ▸ rfl, fun hok => hs ▸ hok⟩

/-- Witness for amended C7: a `clear` run on an instance at address 7. -/
theorem address_fixed_at_construction_witness :
    (NI_GPIB_232.init (some 7) true true).1.address = some 7 ∧
    (NI_GPIB_232.gpib ⟨some 7⟩ (some 7) true).1.address = some 7 ∧
    (⟨some 7⟩ : NI_GPIB_232.NIState).address = (⟨some 7⟩ : NI_GPIB_232.NIState).address ∧
    (NI_GPIB_232.AddrOK (⟨some 7⟩ : NI_GPIB_232.NIState).address →
      NI_GPIB_232.AddrOK (⟨some 7⟩ : NI_GPIB_232.NIState).address) :=
  address_fixed_at_construction (some 7) true true NI_GPIB_232.AdapterOp.clearOp
    ⟨some 7⟩ [] ⟨some 7⟩ (NI_GPIB_232.clear (some 7)) [] (by decide)

/-- C8 counterexample: the error-check routine does not issue exactly one
more query — on an all-zero status reply it sends two command strings,
`stat n` and a trailing `stat`. -/
theorem check_errors_sends_two_commands :
    (NI_GPIB_232.check_errors [chars "0", chars "0", chars "0", chars "0"]).map
        (fun x => writesOf x.2.1) =
      some [chars "stat n", chars "stat"] ∧
    [chars "stat n", chars "stat"].length ≠ 1 := by
  exact ⟨by decide, by decide⟩

/-- C8 (amended): `read` performs, in order, the debug log, a flush, the
addressed read command `rd <addr>`, a fixed sleep, one line read, and then
the error check, whose trace sends the `stat n` query (reading its
four-line reply) plus one trailing `stat` write; the line read before the
error check is the value returned to the caller. -/
theorem read_trace_characterization
    (a : Option Int) (l l1 l2 l3 l4 : List Char) (rest : List (List Char))
    (v1 v2 v3 v4 : Int) (h1 : pyInt l1 = some v1) (h2 : pyInt l2 = some v2)
    (h3 : pyInt l3 = some v3) (h4 : pyInt l4 = some v4) :
    ∃ ctr, NI_GPIB_232.check_errors (l1 :: l2 :: l3 :: l4 :: rest) =
        some ((), ctr, rest) ∧
      NI_GPIB_232.read a (l :: l1 :: l2 :: l3 :: l4 :: rest) =
        some (l, Ev.logDebug :: Ev.flush :: Ev.write (NI_GPIB_232.rd_command a) ::
          Ev.sleep 20 :: Ev.readLine l :: ctr, rest) ∧
      writesOf ctr = [chars "stat n", chars "stat"] ∧
      readsOf ctr = [l1, l2, l3, l4] := by
  have hc := NI_GPIB_232.check_errors_eval l1 l2 l3 l4 rest v1 v2 v3 v4 h1 h2 h3 h4
  refine ⟨NI_GPIB_232.checkTrace l1 l2 l3 l4 v1 v2 v3 v4, hc, ?_, ?_, ?_⟩
  · simp only [NI_GPIB_232.read, hc]
  · simp only [NI_GPIB_232.checkTrace]
    split <;> simp
  · simp only [NI_GPIB_232.checkTrace]
    split <;> simp

/-- Witness for amended C8: a concrete `read` at address 3 returning `HZ5`. -/
theorem read_trace_characterization_witness :
    ∃ ctr, NI_GPIB_232.check_errors [chars "0", chars "0", chars "0", chars "0"] =
        some ((), ctr, []) ∧
      NI_GPIB_232.read (some 3)
          [chars "HZ5", chars "0", chars "0", chars "0", chars "0"] =
        some (chars "HZ5", Ev.logDebug :: Ev.flush ::
          Ev.write (NI_GPIB_232.rd_command (some 3)) ::
          Ev.sleep 20 :: Ev.readLine (chars "HZ5") :: ctr, []) ∧
      writesOf ctr = [chars "stat n", chars "stat"] ∧
      readsOf ctr = [chars "0", chars "0", chars "0", chars "0"] :=
  read_trace_characterization (some 3) (chars "HZ5") (chars "0") (chars "0")
    (chars "0") (chars "0") [] 0 0 0 0 (by decide) (by decide) (by decide) (by decide)

/-- C9: `read_bytes(-1)` behaves exactly as `read_bytes(255)` — the `-1`
sentinel is replaced by 255 before the command is formatted — and for any
other count `n` the adapter writes `rd #<n> <addr>` and requests `n` bytes. -/
theorem read_bytes_minus_one_reads_255
    (a : Option Int) (n : Int) (bs l1 l2 l3 l4 : List Char)
    (rest : List (List Char)) (v1 v2 v3 v4 : Int)
    (h1 : pyInt l1 = some v1) (h2 : pyInt l2 = some v2)
    (h3 : pyInt l3 = some v3) (h4 : pyInt l4 = some v4) (hn : n ≠ -1) :
    (∀ replies, NI_GPIB_232.read_bytes a (-1) bs replies =
      NI_GPIB_232.read_bytes a 255 bs replies) ∧
    (∃ ctr, NI_GPIB_232.check_errors (l1 :: l2 :: l3 :: l4 :: rest) =
        some ((), ctr, rest) ∧
      NI_GPIB_232.read_bytes a n bs (l1 :: l2 :: l3 :: l4 :: rest) =
        some (bs, Ev.logDebug :: Ev.flush ::
          Ev.write (NI_GPIB_232.rd_count_command a n) ::
          Ev.sleep 20 :: Ev.readN n bs :: ctr, rest) ∧
      NI_GPIB_232.read_bytes a (-1) bs (l1 :: l2 :: l3 :: l4 :: rest) =
        some (bs, Ev.logDebug :: Ev.flush ::
          Ev.write (NI_GPIB_232.rd_count_command a 255) ::
          Ev.sleep 20 :: Ev.readN 255 bs :: ctr, rest)) := by
  have hc := NI_GPIB_232.check_errors_eval l1 l2 l3 l4 rest v1 v2 v3 v4 h1 h2 h3 h4
  refine ⟨fun replies => by simp [NI_GPIB_232.read_bytes],
    NI_GPIB_232.checkTrace l1 l2 l3 l4 v1 v2 v3 v4, hc, ?_, ?_⟩
  · simp only [NI_GPIB_232.read_bytes, hc, if_neg hn]
  · simp [NI_GPIB_232.read_bytes, hc]

/-- Witness for C9 at count 7, address 2. -/
theorem read_bytes_minus_one_reads_255_witness :
    (∀ replies, NI_GPIB_232.read_bytes (some 2) (-1) (chars "xy") replies =
      NI_GPIB_232.read_bytes (some 2) 255 (chars "xy") replies) ∧
    (∃ ctr, NI_GPIB_232.check_errors [chars "0", chars "0", chars "0", chars "0"] =
        some ((), ctr, []) ∧
      NI_GPIB_232.read_bytes (some 2) 7 (chars "xy")
          [chars "0", chars "0", chars "0", chars "0"] =
        some (chars "xy", Ev.logDebug :: Ev.flush ::
          Ev.write (NI_GPIB_232.rd_count_command (some 2) 7) ::
          Ev.sleep 20 :: Ev.readN 7 (chars "xy") :: ctr, []) ∧
      NI_GPIB_232.read_bytes (some 2) (-1) (chars "xy")
          [chars "0", chars "0", chars "0", chars "0"] =
        some (chars "xy", Ev.logDebug :: Ev.flush ::
          Ev.write (NI_GPIB_232.rd_count_command (some 2) 255) ::
          Ev.sleep 20 :: Ev.readN 255 (chars "xy") :: ctr, [])) :=
  read_bytes_minus_one_reads_255 (some 2) 7 (chars "xy") (chars "0") (chars "0")
    (chars "0") (chars "0") [] 0 0 0 0 (by decide) (by decide) (by decide)
    (by decide) (by decide)

/-- C10: `HP853A.check_errors` returns `[]` exactly when the first parsed
error entry is `NO ERROR`; otherwise (when entries exist) it returns the
non-empty entry list, each entry ending in `" ERROR"`; and when the reply
contains no occurrence of `ERROR` at all, the entry list is empty and
indexing `errors[0]` raises `IndexError`. -/
theorem hp853a_check_errors_classification (r : List Char) :
    (HP853A.check_errors r = some [] ↔
      (HP853A.entries r ≠ [] ∧ (HP853A.entries r).headI = chars "NO ERROR")) ∧
    (HP853A.entries r ≠ [] → (HP853A.entries r).headI ≠ chars "NO ERROR" →
      HP853A.check_errors r = some (HP853A.entries r) ∧
      ∀ e ∈ HP853A.entries r, chars " ERROR" <:+ e) ∧
    (¬ chars "ERROR" <:+: r → HP853A.check_errors r = none) := by
  refine ⟨?_, ?_, ?_⟩
  · cases hent : HP853A.entries r with
    | nil => simp [HP853A.check_errors, hent]
    | cons e0 tl =>
      simp only [HP853A.check_errors, hent]
      by_cases he : e0 = chars "NO ERROR"
      · simp [he]
      · simp [he]
  · intro hne hhead
    constructor
    · cases hent : HP853A.entries r with
      | nil => exact absurd hent hne
      | cons e0 tl =>
        rw [hent] at hhead
        simp only [List.headI] at hhead
        simp [HP853A.check_errors, hent, hhead]
    · intro e he
      obtain ⟨x, -, rfl⟩ := List.mem_map.mp (show e ∈ List.map _ _ from he)
      exact List.suffix_append _ _
  · intro hnot
    have hresp : pyStrip HP853A.stripSet ((pySplit (chars "\r\n") r).headI) <:+: r :=
      (pyStrip_isInf _ _).trans (pySplit_headI_pre _ r).isInfix
    have hnoterr :
        ¬ chars "ERROR" <:+:
          pyStrip HP853A.stripSet ((pySplit (chars "\r\n") r).headI) :=
      fun hh => hnot (hh.trans hresp)
    have hsplit := pySplit_eq_single (chars "ERROR") hnoterr
    have hent : HP853A.entries r = [] := by
      simp only [HP853A.entries, hsplit]
      simp
    simp [HP853A.check_errors, hent]

/-- Witness for C10: a reply with no `ERROR` substring raises `IndexError`. -/
theorem hp853a_check_errors_classification_witness :
    HP853A.check_errors (chars "all good") = none :=
  (hp853a_check_errors_classification (chars "all good")).2.2 (by decide)
